import Mathlib

/-!
# Verification of the go-metrics → Prometheus bridge (`prometheusmetrics.go`)

Shallow embedding of the translation/publication engine of the
`deathowl/go-metrics-prometheus` repository.  Go strings are modelled as
`List Char`, Go `float64` values that the code merely passes through are
modelled as `ℚ`, Go `int64` as `Int`, Go `uint64` as `Nat` (with the
conversions made explicit), fallible/panicking code as `Except GoPanic`.
The mutable fields of `PrometheusConfig` together with the Prometheus
registry they talk to are modelled as an explicit state `GState` threaded
through the operations.
-/

/-- A Go string, as a list of characters. -/
abbrev GoStr := List Char

/-- Convert a Lean string literal to the `GoStr` model. -/
def gs (s : String) : GoStr := s.toList

/-- Go `strings.Replace(s, old, new, -1)` for one-character `old`/`new`:
replaces every occurrence, i.e. maps over the characters. -/
def goReplaceAll (s : GoStr) (old new : Char) : GoStr :=
  s.map fun ch => if ch = old then new else ch

/-- `flattenKey` (prometheusmetrics.go lines 74-81): five successive
`strings.Replace` calls turning space, `.`, `-`, `=`, `/` into `_`. -/
def flattenKey (key : GoStr) : GoStr :=
  goReplaceAll (goReplaceAll (goReplaceAll (goReplaceAll (goReplaceAll
    key ' ' '_') '.' '_') '-' '_') '=' '_') '/' '_'

/-- `createKey` (lines 83-85): `fmt.Sprintf("%s_%s_%s", c.namespace,
c.subsystem, name)`.  Note: the raw, unflattened strings are used. -/
def createKey (nspace subsys name : GoStr) : GoStr :=
  nspace ++ '_' :: subsys ++ '_' :: name

/-- `prometheus.BuildFQName` (external Prometheus client behavior, relied on
by `GaugeOpts`/`NewDesc`): joins the nonempty components with `_`; an empty
name yields the empty string. -/
def buildFQName (nspace subsys name : GoStr) : GoStr :=
  if name = [] then [] else
    (if nspace = [] then [] else nspace ++ ['_']) ++
    (if subsys = [] then [] else subsys ++ ['_']) ++ name

/-- Does `pat` occur at the head of `s`? (helper for Contains/Split). -/
def headMatches : GoStr → GoStr → Bool
  | [], _ => true
  | _ :: _, [] => false
  | a :: as, b :: bs => a = b && headMatches as bs

/-- First occurrence of `sep` in `s`: returns the part before it and the part
after it, or `none` when `sep` does not occur.  (Only used with nonempty
separators, matching the source.) -/
def findSplit (sep : GoStr) : GoStr → Option (GoStr × GoStr)
  | [] => none
  | a :: as =>
      if headMatches sep (a :: as) then some ([], (a :: as).drop sep.length)
      else match findSplit sep as with
        | none => none
        | some (b, c) => some (a :: b, c)

/-- Splitting loop with explicit fuel (a structural-termination device: each
successful `findSplit` strictly shrinks the remaining string, so any fuel
at least the string's length gives the untruncated answer, see
`splitGoAux_fuel`). -/
def splitGoAux (sep : GoStr) : ℕ → GoStr → List GoStr
  | 0, s => [s]
  | fuel + 1, s =>
      match findSplit sep s with
      | none => [s]
      | some (b, c) => b :: splitGoAux sep fuel c

/-- Go `strings.Split(s, sep)` for nonempty `sep`: splits around every
non-overlapping occurrence of `sep`, left to right; if `sep` does not occur
the result is `[s]`.  (Only used with nonempty separators, matching the
source.) -/
def splitGo (s sep : GoStr) : List GoStr :=
  if sep = [] then [s] else splitGoAux sep s.length s

/-- Go `strings.Contains(s, sub)` for nonempty `sub`. -/
def goContains (s sub : GoStr) : Bool :=
  (findSplit sub s).isSome

/-! ## Association-list maps (Go `map` model) -/

/-- Lookup in an association list (Go `m[k]`, first matching key). -/
def alookup {κ β : Type} [DecidableEq κ] (k : κ) : List (κ × β) → Option β
  | [] => none
  | (k', v) :: rest => if k = k' then some v else alookup k rest

/-- Go map assignment `m[k] = v`: replaces the binding of `k` in place, or
appends a fresh binding. -/
def aset {κ β : Type} [DecidableEq κ] (l : List (κ × β)) (k : κ) (v : β) :
    List (κ × β) :=
  match l with
  | [] => [(k, v)]
  | (k', v') :: rest => if k' = k then (k, v) :: rest else (k', v') :: aset rest k v

/-- Labels (`prometheus.Labels`): an association list of label name → value. -/
abbrev Labels := List (GoStr × GoStr)

/-- Inserting every binding of `ext` into `base`, in order (the two `for`
loops of `gaugeFromNameAndValue` lines 91-98 building the `labels` map). -/
def unionL (base ext : Labels) : Labels :=
  ext.foldl (fun acc kv => aset acc kv.1 kv.2) base

/-! ## Error and value models -/

/-- The Go panics the translation code can raise. -/
inductive GoPanic where
  /-- `split[1]` with a one-element slice (lines 214, 219). -/
  | indexOutOfRange
  /-- `panic(err)` on a non-duplicate registration failure (line 116), and
  `MustRegister` on any registration failure (line 133). -/
  | registrationFailed
  /-- `panic(fmt.Sprintf("unexpected metric type %T", ...))` (line 156). -/
  | unexpectedMetricType
deriving DecidableEq

/-- A non-nil Go `error` value (the `error` result of
`UpdatePrometheusMetricsOnce`; the code only ever returns `nil`). -/
inductive GoError where
  | someError
deriving DecidableEq

/-- Go `uint64(x)` for a `float64` `x`: truncation toward zero.  The claims
only apply it to non-negative in-range values, where truncation toward zero
coincides with the floor.  (For negative or out-of-range values Go leaves
the result implementation-specific.) -/
def u64ofRat (q : ℚ) : ℕ := (⌊q⌋).toNat

/-- Go `uint64(i)` for an `int64` `i`: reinterpretation mod `2^64`. -/
def u64ofInt (i : ℤ) : ℕ := (i % (2 : ℤ) ^ 64).toNat

/-! ## Source metric snapshots (read-only inputs from go-metrics) -/

/-- Snapshot of a go-metrics `Histogram`: `Count()`, `Sum()` (both `int64`),
the reservoir sample values `Sample().Values()`, and the percentile query
`Percentiles(ps)`, modelled pointwise (go-metrics computes each requested
percentile independently from the sorted sample). -/
structure HistogramSnapshot where
  count : ℤ
  sum : ℤ
  sampleValues : List ℤ
  percentile : ℚ → ℚ

/-- Snapshot of a go-metrics `Meter`. -/
structure MeterSnapshot where
  count : ℤ
  rate1 : ℚ
  rate5 : ℚ
  rate15 : ℚ
  rateMean : ℚ

/-- Snapshot of a go-metrics `Timer` (duration distribution plus rates). -/
structure TimerSnapshot where
  count : ℤ
  sum : ℤ
  max : ℤ
  min : ℤ
  mean : ℚ
  stdDev : ℚ
  variance : ℚ
  rate1 : ℚ
  rate5 : ℚ
  rate15 : ℚ
  rateMean : ℚ
  percentile : ℚ → ℚ

/-- A registry entry, classified the way the type switch of
`UpdatePrometheusMetricsOnce` (lines 225-293) sees it.  Since the publisher
takes each metric's snapshot during the cycle and only reads snapshot
accessors, the snapshot data itself stands in for the metric object.
`unrecognized` is any `interface{}` value matching none of the cases. -/
inductive Metric where
  | counter (count : ℤ)
  | gauge (value : ℤ)
  | gaugeFloat64 (value : ℚ)
  | histogram (snap : HistogramSnapshot)
  | meter (snap : MeterSnapshot)
  | timer (snap : TimerSnapshot)
  | unrecognized

/-! ## Configuration and state -/

/-- The configuration part of `PrometheusConfig` (lines 17-33) that the
translation logic reads: namespace (`nspace`, a Lean keyword forbids the
source spelling), subsystem, the static labels, and the two bucket lists. -/
structure PromConfig where
  nspace : GoStr
  subsys : GoStr
  labels : Labels
  histogramBuckets : List ℚ
  timerBuckets : List ℚ

/-- Default histogram percentile boundaries (`NewPrometheusProvider`,
line 45). -/
def defaultHistogramBuckets : List ℚ := [0.05, 0.1, 0.25, 0.50, 0.75, 0.9, 0.95, 0.99]

/-- Default timer percentile boundaries (`NewPrometheusProvider`, line 46). -/
def defaultTimerBuckets : List ℚ := [0.50, 0.95, 0.99, 0.999]

/-- `NewPrometheusProvider` (lines 37-54): namespace and subsystem as given,
empty label set, default bucket boundaries. -/
def newPrometheusProvider (nspace subsys : GoStr) : PromConfig :=
  { nspace := nspace
    subsys := subsys
    labels := []
    histogramBuckets := defaultHistogramBuckets
    timerBuckets := defaultTimerBuckets }

/-- An immutable distribution snapshot as handed to
`prometheus.NewConstHistogram` (lines 187-193): total count, sum, the
upper-bound → cumulative-count pairs in boundary order, plus the
fully-qualified series name and the label values attached to it. -/
structure ConstHistogram where
  fqName : GoStr
  count : ℕ
  sum : ℚ
  buckets : List (ℚ × ℕ)
  labelValues : List GoStr
deriving DecidableEq

/-- The mutable state the publisher owns or writes through to: the
`PrometheusConfig` caches (`gauges`, `customMetrics`), the Prometheus
registry contents, and the log of gauge writes.

* `gauges`: `createKey`-keyed cache of `GaugeVec`s (field `c.gauges`);
  `GaugeVec` objects are represented by numeric ids allocated from
  `nextGauge`.
* `promGauges`: the Prometheus registry's view of registered gauge
  collectors, keyed by fully-qualified name, holding the help string and
  variable label names of the registered descriptor and the collector id.
* `gaugeWrites`: the sequence of `g.With(labels).Set(val)` calls (line 123),
  newest last.
* `customMetrics`: `createKey`-keyed cache of `CustomCollector`s (field
  `c.customMetrics`), ids allocated from `nextCollector`.
* `collectorMetric`: each registered `CustomCollector`'s held
  `constHistogram` (its `metric` field), if set. -/
structure GState where
  gauges : List (GoStr × ℕ)
  promGauges : List (GoStr × (GoStr × List GoStr × ℕ))
  nextGauge : ℕ
  gaugeWrites : List (ℕ × Labels × ℚ)
  customMetrics : List (GoStr × ℕ)
  nextCollector : ℕ
  collectorMetric : List (ℕ × ConstHistogram)
deriving DecidableEq

/-- The state at construction time: empty caches, empty registry. -/
def GState.init : GState :=
  { gauges := []
    promGauges := []
    nextGauge := 0
    gaugeWrites := []
    customMetrics := []
    nextCollector := 0
    collectorMetric := [] }

/-! ## Registration with the exporter registry -/

/-- Outcome of `promRegistry.Register(collector)`. -/
inductive RegisterResult where
  | accepted
  | alreadyRegistered (existing : ℕ)
  | otherFailure
deriving DecidableEq

/-- The Prometheus registry's `Register` for a `GaugeVec` (external
`client_golang` behavior): a collector whose descriptor carries an already
registered fully-qualified name is rejected — with
`AlreadyRegisteredError` (carrying the existing collector) when help string
and label names agree with the registered descriptor, and with an ordinary
error ("has different label names or a different help string") otherwise;
a fresh name is accepted and recorded. -/
def registerGauge (st : GState) (fq : GoStr) (help : GoStr)
    (labelNames : List GoStr) (g : ℕ) : RegisterResult × GState :=
  match alookup fq st.promGauges with
  | some (help', labelNames', g') =>
      if help' = help ∧ labelNames' = labelNames then (.alreadyRegistered g', st)
      else (.otherFailure, st)
  | none =>
      (.accepted, { st with promGauges := aset st.promGauges fq (help, labelNames, g) })

/-- The error handling of `gaugeFromNameAndValue` (lines 110-118): an
`AlreadyRegisteredError` is unwrapped to the existing collector; any other
registration failure is `panic(err)`. -/
def handleGaugeRegister (r : RegisterResult) (g : ℕ) : Except GoPanic ℕ :=
  match r with
  | .accepted => .ok g
  | .alreadyRegistered existing => .ok existing
  | .otherFailure => .error .registrationFailed

/-- The error handling of `histogramFromNameAndMetric` (line 133):
`MustRegister` panics on any non-nil registration error — including an
`AlreadyRegisteredError` — and returns nothing on success. -/
def histRegisterHandle (r : RegisterResult) : Except GoPanic Unit :=
  match r with
  | .accepted => .ok ()
  | .alreadyRegistered _ => .error .registrationFailed
  | .otherFailure => .error .registrationFailed

/-- The Prometheus registry's `Register` for a `CustomCollector` (external
`client_golang` behavior): its `Describe` sends no descriptors (lines
321-323), so the registry accepts it as an "unchecked" collector; such a
registration cannot be rejected. -/
def registerCollectorResult (st : GState) : RegisterResult := .accepted

/-! ## The Translator/Publisher operations -/

/-- Append one `g.With(labels).Set(val)` call to the write log (line 123). -/
def writeGauge (st : GState) (g : ℕ) (lbls : Labels) (val : ℚ) : GState :=
  { st with gaugeWrites := st.gaugeWrites ++ [(g, lbls, val)] }

/-- The fully-qualified name of the gauge series built by
`gaugeFromNameAndValue` (lines 103-108): `GaugeOpts` with the flattened
namespace, subsystem and name, combined by `BuildFQName`. -/
def gaugeFQName (c : PromConfig) (name : GoStr) : GoStr :=
  buildFQName (flattenKey c.nspace) (flattenKey c.subsys) (flattenKey name)

/-- `gaugeFromNameAndValue` (lines 87-125): build the label name list and
label value map from the config labels followed by the extra labels; look
the `createKey` up in the `gauges` cache; on a miss create a `GaugeVec`
(help string = the raw name, line 107), register it — reusing the existing
collector on `AlreadyRegisteredError`, panicking on any other failure — and
cache it; finally set the value on the (possibly labeled) gauge. -/
def gaugeFromNameAndValue (c : PromConfig) (st : GState) (name : GoStr)
    (val : ℚ) (extraLabels : Labels) : Except GoPanic GState := do
  let labelNames := c.labels.map Prod.fst ++ extraLabels.map Prod.fst
  let lbls := unionL (unionL [] c.labels) extraLabels
  let key := createKey c.nspace c.subsys name
  match alookup key st.gauges with
  | some g => pure (writeGauge st g lbls val)
  | none =>
      let g := st.nextGauge
      let st1 := { st with nextGauge := g + 1 }
      let (r, st2) := registerGauge st1 (gaugeFQName c name) name labelNames g
      let g' ← handleGaugeRegister r g
      let st3 := { st2 with gauges := aset st2.gauges key g' }
      pure (writeGauge st3 g' lbls val)

/-- The `{count, sum, bucketVals}` tuple computed by
`histogramFromNameAndMetric` from a snapshot with percentile query `perc`,
count `cnt` and sum `sum` (lines 142-162): `ps := Percentiles(buckets)`;
`count := uint64(Count())`; `sum := float64(Sum())`;
`bucketVals[bucket] = uint64(ps[ii])` for each boundary in order. -/
def constHistogramOf (fqName : GoStr) (cnt : ℤ) (sum : ℤ) (perc : ℚ → ℚ)
    (buckets : List ℚ) (labelVals : List GoStr) : ConstHistogram :=
  let ps := buckets.map perc
  { fqName := fqName
    count := u64ofInt cnt
    sum := (sum : ℚ)
    buckets := List.zipWith (fun bucket p => (bucket, u64ofRat p)) buckets ps
    labelValues := labelVals }

/-- `histogramFromNameAndMetric` (lines 127-198): look the `createKey` up in
the `customMetrics` cache; on a miss create a `CustomCollector`,
`MustRegister` it (panicking on any registration error) and cache it; take
the snapshot of the histogram or timer (any other metric type panics,
line 156); build the `constHistogram` with the flattened
`<name>_<typeName>` fully-qualified name and the config-plus-extra label
values, and store it as the collector's held metric (lines 194-196).
The source ignores a `NewConstHistogram` error; with label names and values
built from the same two maps the construction cannot fail, so the store is
unconditional here. -/
def histogramFromNameAndMetric (c : PromConfig) (st : GState) (name : GoStr)
    (m : Metric) (buckets : List ℚ) (extraLabels : Labels) :
    Except GoPanic GState := do
  let key := createKey c.nspace c.subsys name
  let (cid, st1) ← (match alookup key st.customMetrics with
    | some col => pure (col, st)
    | none => do
        let col := st.nextCollector
        let _ ← histRegisterHandle (registerCollectorResult st)
        pure (col, { st with
          nextCollector := col + 1
          customMetrics := aset st.customMetrics key col })
    : Except GoPanic (ℕ × GState))
  let (cnt, sum, perc, typeName) ← (match m with
    | .histogram snap => pure (snap.count, snap.sum, snap.percentile, gs "histogram")
    | .timer snap => pure (snap.count, snap.sum, snap.percentile, gs "timer")
    | _ => Except.error .unexpectedMetricType
    : Except GoPanic (ℤ × ℤ × (ℚ → ℚ) × GoStr))
  let labelVals := c.labels.map Prod.snd ++ extraLabels.map Prod.snd
  let fq := buildFQName (flattenKey c.nspace) (flattenKey c.subsys)
      (flattenKey name ++ '_' :: typeName)
  let ch := constHistogramOf fq cnt sum perc buckets labelVals
  pure { st1 with collectorMetric := aset st1.collectorMetric cid ch }

/-! ## Structured-name extraction -/

/-- One block of the structured-name extraction (lines 211-215 for
`for-broker`, 216-220 for `for-topic`): if the name contains `needle`,
split it on `sep`; `name` becomes `split[0] + rename` and the label
`labelKey` is set to `split[1]` — which panics with an index-out-of-range
when the split produced fewer than two parts. -/
def extractStep (needle sep rename labelKey : GoStr) (name : GoStr)
    (lbls : Labels) : Except GoPanic (GoStr × Labels) :=
  if goContains name needle then
    match splitGo name sep with
    | s0 :: s1 :: _ => .ok (s0 ++ rename, aset lbls labelKey s1)
    | _ => .error .indexOutOfRange
  else .ok (name, lbls)

/-- The label-extraction hack at the top of the `Registry.Each` callback
(lines 210-220): the `for-broker` block followed by the `for-topic` block,
the second operating on the name left by the first, both accumulating into
the same `extraLabels` map. -/
def extractLabels (name : GoStr) : Except GoPanic (GoStr × Labels) := do
  let (n1, l1) ← extractStep (gs "for-broker") (gs "-for-broker-")
      (gs "-for-broker") (gs "for_broker") name []
  extractStep (gs "for-topic") (gs "-for-topic-")
      (gs "-for-topic") (gs "for_topic") n1 l1

/-! ## The publish cycle -/

/-- The body of the `Registry.Each` callback of
`UpdatePrometheusMetricsOnce` (lines 207-293) for one `(name, metric)`
entry: extract structured-name labels, then dispatch on the metric kind;
an unmatched kind falls through the type switch with no effect. -/
def processEntry (c : PromConfig) (st : GState) (name0 : GoStr) (m : Metric) :
    Except GoPanic GState := do
  let (name, extraLabels) ← extractLabels name0
  match m with
  | .counter cnt => gaugeFromNameAndValue c st name (cnt : ℚ) extraLabels
  | .gauge v => gaugeFromNameAndValue c st name (v : ℚ) extraLabels
  | .gaugeFloat64 v => gaugeFromNameAndValue c st name v extraLabels
  | .histogram snap => do
      let samples := snap.sampleValues
      let st1 ←
        if samples.length > 0 then
          gaugeFromNameAndValue c st name ((samples.getLastD 0 : ℤ) : ℚ) extraLabels
        else pure st
      histogramFromNameAndMetric c st1 name (.histogram snap)
        c.histogramBuckets extraLabels
  | .meter snap => do
      let e1 := aset extraLabels (gs "rate_unit") (gs "rate1")
      let st1 ← gaugeFromNameAndValue c st name snap.rate1 e1
      let e2 := aset e1 (gs "rate_unit") (gs "rate5")
      let st2 ← gaugeFromNameAndValue c st1 name snap.rate5 e2
      let e3 := aset e2 (gs "rate_unit") (gs "rate15")
      let st3 ← gaugeFromNameAndValue c st2 name snap.rate15 e3
      let e4 := aset e3 (gs "rate_unit") (gs "mean")
      let st4 ← gaugeFromNameAndValue c st3 name snap.rateMean e4
      let e5 := aset e4 (gs "rate_unit") (gs "count")
      gaugeFromNameAndValue c st4 name (snap.count : ℚ) e5
  | .timer snap => do
      let st1 ← histogramFromNameAndMetric c st name (.timer snap)
        c.timerBuckets extraLabels
      let e1 := aset extraLabels (gs "rate_unit") (gs "rate1")
      let st2 ← gaugeFromNameAndValue c st1 name snap.rate1 e1
      let e2 := aset e1 (gs "rate_unit") (gs "rate5")
      let st3 ← gaugeFromNameAndValue c st2 name snap.rate5 e2
      let e3 := aset e2 (gs "rate_unit") (gs "rate15")
      let st4 ← gaugeFromNameAndValue c st3 name snap.rate15 e3
      let e4 := aset e3 (gs "rate_unit") (gs "rate_mean")
      let st5 ← gaugeFromNameAndValue c st4 name snap.rateMean e4
      let e5 := aset e4 (gs "rate_unit") (gs "count")
      let st6 ← gaugeFromNameAndValue c st5 name (snap.count : ℚ) e5
      let e6 := aset e5 (gs "rate_unit") (gs "sum")
      let st7 ← gaugeFromNameAndValue c st6 name (snap.sum : ℚ) e6
      let e7 := aset e6 (gs "rate_unit") (gs "max")
      let st8 ← gaugeFromNameAndValue c st7 name (snap.max : ℚ) e7
      let e8 := aset e7 (gs "rate_unit") (gs "min")
      let st9 ← gaugeFromNameAndValue c st8 name (snap.min : ℚ) e8
      let e9 := aset e8 (gs "rate_unit") (gs "mean")
      let st10 ← gaugeFromNameAndValue c st9 name snap.mean e9
      let e10 := aset e9 (gs "rate_unit") (gs "variance")
      let st11 ← gaugeFromNameAndValue c st10 name snap.variance e10
      let e11 := aset e10 (gs "rate_unit") (gs "std_dev")
      gaugeFromNameAndValue c st11 name snap.stdDev e11
  | .unrecognized => pure st

/-- `UpdatePrometheusMetricsOnce` (lines 206-296): run the callback over
every registry entry in order; a Go panic raised inside the callback
propagates out of `Registry.Each`; when the iteration completes the
function executes `return nil`, so the returned `error` is always `none`. -/
def updateOnce (c : PromConfig) (st : GState)
    (entries : List (GoStr × Metric)) :
    Except GoPanic (GState × Option GoError) := do
  let st' ← entries.foldlM (fun s e => processEntry c s e.1 e.2) st
  pure (st', none)

/-! ## The repeating publish loop -/

/-- Go `time.Tick(d)` (stdlib, external to this repository): a channel
delivering its k-th tick (0-indexed) at time `(k+1)*d` after the call;
no tick is delivered at time 0. -/
def tickTime (d k : ℕ) : ℕ := (k + 1) * d

/-- `UpdatePrometheusMetrics` (lines 200-204) ranges over
`time.Tick(c.FlushInterval)` and calls `UpdatePrometheusMetricsOnce` once
per received tick; hence its n-th call to `UpdatePrometheusMetricsOnce`
(0-indexed) starts at `tickTime interval n` after entering the loop, and
since the range over the channel never ends there is an n-th call for
every n — the function never returns. -/
def updateLoopCallTime (interval n : ℕ) : ℕ := tickTime interval n

/-! ## Observation helpers -/

/-- The gauge-write log of a publish outcome (empty on a panic). -/
def writesOf : Except GoPanic GState → List (ℕ × Labels × ℚ)
  | .ok st => st.gaugeWrites
  | .error _ => []

/-- Did the computation complete without a Go panic? -/
def isOkE {α : Type} : Except GoPanic α → Bool
  | .ok _ => true
  | .error _ => false

/-- Project a gauge write to (its `rate_unit` label value, its value):
which rate statistic the sub-series identifies, and the number written. -/
def rateUnitView (w : ℕ × Labels × ℚ) : Option GoStr × ℚ :=
  (alookup (gs "rate_unit") w.2.1, w.2.2)

/-- Project a gauge write to the value written. -/
def valueView (w : ℕ × Labels × ℚ) : ℚ := w.2.2

/-- The distribution snapshot currently held for metric `name`: the
`CustomCollector` cached under `createKey`, and the `constHistogram` it
would replay on the next scrape. -/
def heldDistribution (c : PromConfig) (st : GState) (name : GoStr) :
    Option ConstHistogram :=
  match alookup (createKey c.nspace c.subsys name) st.customMetrics with
  | some cid => alookup cid st.collectorMetric
  | none => none

/-- `heldDistribution` through an `Except` outcome (none on a panic). -/
def heldDistributionE (c : PromConfig) (r : Except GoPanic GState)
    (name : GoStr) : Option ConstHistogram :=
  match r with
  | .ok st => heldDistribution c st name
  | .error _ => none


/-! ## Concrete instances used by the verification -/

/-- The outcome of one publish cycle over a registry holding a single
Counter named `c` with value 4, under namespace `t` / subsystem `s`. -/
def c3result : GState × Option GoError :=
  ({ gauges := [(gs "t_s_c", 0)], promGauges := [(gs "t_s_c", (gs "c", [], 0))],
     nextGauge := 1, gaugeWrites := [(0, [], 4)], customMetrics := [],
     nextCollector := 0, collectorMetric := [] }, none)

/-- A registry state in which a collector for the fully-qualified name
`p_q_g1` (help `g1`, no labels) is already registered as collector 7 —
the duplicate-registration scenario. -/
def c8st : GState := { GState.init with promGauges := [(gs "p_q_g1", (gs "g1", [], 7))] }

/-- The state after one publish cycle over a registry holding a single
Counter named `cnt` with value 6, under namespace `w` / subsystem `x`. -/
def c9st1 : GState :=
  { gauges := [(gs "w_x_cnt", 0)], promGauges := [(gs "w_x_cnt", (gs "cnt", [], 0))],
    nextGauge := 1, gaugeWrites := [(0, [], 6)], customMetrics := [],
    nextCollector := 0, collectorMetric := [] }

/-! ## Lemmas about the string operations -/

theorem findSplit_length {sep s b c : GoStr} (hsep : sep ≠ [])
    (h : findSplit sep s = some (b, c)) : c.length < s.length := by
  induction s generalizing b with
  | nil => simp [findSplit] at h
  | cons a as ih =>
      unfold findSplit at h
      by_cases hm : headMatches sep (a :: as)
      · simp [hm] at h
        obtain ⟨hb, hc⟩ := h
        subst hc
        have hlen : 0 < sep.length := List.length_pos.mpr hsep
        simp [List.length_drop]
        omega
      · simp [hm] at h
        cases hfs : findSplit sep as with
        | none => rw [hfs] at h; simp at h
        | some bc =>
            rw [hfs] at h
            obtain ⟨b', c'⟩ := bc
            simp at h
            obtain ⟨⟨hb, hb'⟩, hc⟩ := h
            subst hc
            have := ih (b := b') hfs
            simp [List.length_cons]
            omega

/-- Any fuel of at least the string's length yields the same split. -/
theorem splitGoAux_fuel {sep : GoStr} (hsep : sep ≠ []) :
    ∀ f₁ f₂ s, s.length ≤ f₁ → s.length ≤ f₂ →
      splitGoAux sep f₁ s = splitGoAux sep f₂ s := by
  intro f₁
  induction f₁ using Nat.strong_induction_on with
  | _ f₁ ih =>
      intro f₂ s h₁ h₂
      match f₁, f₂ with
      | 0, 0 => rfl
      | 0, f₂ + 1 =>
          have hs : s = [] := List.length_eq_zero.mp (Nat.le_zero.mp h₁)
          subst hs
          simp [splitGoAux, findSplit]
      | f₁ + 1, 0 =>
          have hs : s = [] := List.length_eq_zero.mp (Nat.le_zero.mp h₂)
          subst hs
          simp [splitGoAux, findSplit]
      | f₁ + 1, f₂ + 1 =>
          simp only [splitGoAux]
          cases hfs : findSplit sep s with
          | none => rfl
          | some bc =>
              obtain ⟨b, cres⟩ := bc
              have hlt := findSplit_length hsep hfs
              have := ih f₁ (Nat.lt_succ_self f₁) f₂ cres (by omega) (by omega)
              simp [this]

/-! ## Map and key lemmas -/

theorem alookup_aset_self {κ β : Type} [DecidableEq κ] (l : List (κ × β))
    (k : κ) (v : β) : alookup k (aset l k v) = some v := by
  induction l with
  | nil => simp [aset, alookup]
  | cons kv rest ih =>
      obtain ⟨k', v'⟩ := kv
      by_cases h : k' = k
      · subst h; simp [aset, alookup]
      · have h2 : ¬k = k' := fun hk => h hk.symm
        simp [aset, h, alookup, h2, ih]

theorem aset_aset_same {κ β : Type} [DecidableEq κ] (l : List (κ × β))
    (k : κ) (v w : β) : aset (aset l k v) k w = aset l k w := by
  induction l with
  | nil => simp [aset]
  | cons kv rest ih =>
      obtain ⟨k', v'⟩ := kv
      by_cases h : k' = k
      · subst h; simp [aset]
      · simp [aset, h, ih]

theorem aset_eq_append {κ β : Type} [DecidableEq κ] {l : List (κ × β)}
    {k : κ} (v : β) (h : alookup k l = none) : aset l k v = l ++ [(k, v)] := by
  induction l with
  | nil => simp [aset]
  | cons kv rest ih =>
      obtain ⟨k', v'⟩ := kv
      by_cases hk : k = k'
      · simp only [alookup, if_pos hk] at h
        exact absurd h (by simp)
      · simp only [alookup, if_neg hk] at h
        have h2 : ¬k' = k := fun h' => hk h'.symm
        simp [aset, h2, ih h]

theorem unionL_append (b : Labels) (l₁ l₂ : Labels) :
    unionL b (l₁ ++ l₂) = unionL (unionL b l₁) l₂ := by
  simp [unionL, List.foldl_append]

theorem alookup_unionL_aset (b e : Labels) (k v : GoStr)
    (he : alookup k e = none) :
    alookup k (unionL b (aset e k v)) = some v := by
  rw [aset_eq_append v he, unionL_append]
  simp [unionL, List.foldl]
  exact alookup_aset_self _ _ _

theorem createKey_inj {nspace subsys n1 n2 : GoStr}
    (h : createKey nspace subsys n1 = createKey nspace subsys n2) : n1 = n2 := by
  unfold createKey at h
  have h1 := List.append_cancel_left h
  simp at h1
  exact h1

theorem alookup_aset_ne {κ β : Type} [DecidableEq κ] {k k' : κ} (l : List (κ × β))
    (v : β) (h : k ≠ k') : alookup k (aset l k' v) = alookup k l := by
  induction l with
  | nil => simp [aset, alookup, h]
  | cons kv rest ih =>
      obtain ⟨k'', v''⟩ := kv
      by_cases h2 : k'' = k'
      · subst h2; simp [aset, alookup, h, fun hh => h (hh : k = k'')]
      · simp [aset, h2, alookup, ih]

/-! ## Behavior of the gauge path -/

theorem registerGauge_preserves (st : GState) (fq help : GoStr) (ln : List GoStr) (g : ℕ) :
    ((registerGauge st fq help ln g).2).gaugeWrites = st.gaugeWrites ∧
    ((registerGauge st fq help ln g).2).gauges = st.gauges ∧
    ((registerGauge st fq help ln g).2).customMetrics = st.customMetrics ∧
    ((registerGauge st fq help ln g).2).collectorMetric = st.collectorMetric := by
  unfold registerGauge
  cases alookup fq st.promGauges with
  | none => simp
  | some t => obtain ⟨h', l', g'⟩ := t; by_cases hc : h' = help ∧ l' = ln <;> simp [hc]

/-- A successful `gaugeFromNameAndValue` appends exactly one write — on the
gauge it found or created — carrying the config-plus-extra label map and the
given value. -/
theorem gauge_ok_writes {c : PromConfig} {st : GState} {name : GoStr} {v : ℚ}
    {e : Labels} {st' : GState}
    (h : gaugeFromNameAndValue c st name v e = .ok st') :
    ∃ g, st'.gaugeWrites = st.gaugeWrites ++ [(g, unionL (unionL [] c.labels) e, v)] := by
  simp only [gaugeFromNameAndValue] at h
  cases halo : alookup (createKey c.nspace c.subsys name) st.gauges with
  | some g =>
      rw [halo] at h
      simp [pure, Except.pure] at h
      exact ⟨g, by rw [← h]; simp [writeGauge]⟩
  | none =>
      rw [halo] at h
      rcases hreg : registerGauge { st with nextGauge := st.nextGauge + 1 }
          (gaugeFQName c name) name (c.labels.map Prod.fst ++ e.map Prod.fst)
          st.nextGauge with ⟨r, st2⟩
      rw [hreg] at h
      have hpres := registerGauge_preserves { st with nextGauge := st.nextGauge + 1 }
          (gaugeFQName c name) name (c.labels.map Prod.fst ++ e.map Prod.fst) st.nextGauge
      rw [hreg] at hpres
      obtain ⟨hw, -, -, -⟩ := hpres
      simp at hw
      cases r with
      | accepted =>
          simp [handleGaugeRegister, bind, Except.bind, pure, Except.pure] at h
          exact ⟨st.nextGauge, by rw [← h]; simp [writeGauge, hw]⟩
      | alreadyRegistered ex =>
          simp [handleGaugeRegister, bind, Except.bind, pure, Except.pure] at h
          exact ⟨ex, by rw [← h]; simp [writeGauge, hw]⟩
      | otherFailure =>
          simp [handleGaugeRegister, bind, Except.bind] at h

/-! ## Behavior of the distribution path -/

/-- `histogramFromNameAndMetric` on a Histogram always succeeds in-process,
writes no gauge, and leaves the collector cached under the metric's
`createKey` holding exactly the `constHistogram` computed from the
snapshot. -/
theorem hist_ok_histogram (c : PromConfig) (st : GState) (name : GoStr)
    (snap : HistogramSnapshot) (buckets : List ℚ) (e : Labels) :
    ∃ st2, histogramFromNameAndMetric c st name (.histogram snap) buckets e = .ok st2 ∧
      st2.gaugeWrites = st.gaugeWrites ∧
      heldDistribution c st2 name = some (constHistogramOf
        (buildFQName (flattenKey c.nspace) (flattenKey c.subsys)
          (flattenKey name ++ '_' :: gs "histogram"))
        snap.count snap.sum snap.percentile buckets
        (c.labels.map Prod.snd ++ e.map Prod.snd)) := by
  simp only [histogramFromNameAndMetric]
  cases halo : alookup (createKey c.nspace c.subsys name) st.customMetrics with
  | some cid =>
      refine ⟨_, rfl, ?_, ?_⟩
      · simp [bind, Except.bind, pure, Except.pure]
      · simp [bind, Except.bind, pure, Except.pure, heldDistribution, halo,
          alookup_aset_self]
  | none =>
      refine ⟨_, rfl, ?_, ?_⟩
      · simp [bind, Except.bind, pure, Except.pure, histRegisterHandle,
          registerCollectorResult]
      · simp [bind, Except.bind, pure, Except.pure, histRegisterHandle,
          registerCollectorResult, heldDistribution, alookup_aset_self]

/-- `histogramFromNameAndMetric` on a Timer: same shape as the Histogram
case with the `timer` type name. -/
theorem hist_ok_timer (c : PromConfig) (st : GState) (name : GoStr)
    (snap : TimerSnapshot) (buckets : List ℚ) (e : Labels) :
    ∃ st2, histogramFromNameAndMetric c st name (.timer snap) buckets e = .ok st2 ∧
      st2.gaugeWrites = st.gaugeWrites ∧
      heldDistribution c st2 name = some (constHistogramOf
        (buildFQName (flattenKey c.nspace) (flattenKey c.subsys)
          (flattenKey name ++ '_' :: gs "timer"))
        snap.count snap.sum snap.percentile buckets
        (c.labels.map Prod.snd ++ e.map Prod.snd)) := by
  simp only [histogramFromNameAndMetric]
  cases halo : alookup (createKey c.nspace c.subsys name) st.customMetrics with
  | some cid =>
      refine ⟨_, rfl, ?_, ?_⟩
      · simp [bind, Except.bind, pure, Except.pure]
      · simp [bind, Except.bind, pure, Except.pure, heldDistribution, halo,
          alookup_aset_self]
  | none =>
      refine ⟨_, rfl, ?_, ?_⟩
      · simp [bind, Except.bind, pure, Except.pure, histRegisterHandle,
          registerCollectorResult]
      · simp [bind, Except.bind, pure, Except.pure, histRegisterHandle,
          registerCollectorResult, heldDistribution, alookup_aset_self]

/-! ## Behavior of the name extraction -/

/-- A successful `extractStep` either leaves the label map alone or sets
exactly its own label key. -/
theorem extractStep_labels {needle sep rename labelKey : GoStr} {name n' : GoStr}
    {l e : Labels}
    (h : extractStep needle sep rename labelKey name l = .ok (n', e)) :
    e = l ∨ ∃ s, e = aset l labelKey s := by
  unfold extractStep at h
  split at h
  · split at h
    · simp at h
      exact Or.inr ⟨_, h.2.symm⟩
    · simp at h
  · simp at h
    exact Or.inl h.2.symm

/-- The structured-name extraction never binds the `rate_unit` label: it
only ever sets `for_broker` and `for_topic`. -/
theorem extract_no_rate_unit {n n' : GoStr} {e : Labels}
    (h : extractLabels n = .ok (n', e)) : alookup (gs "rate_unit") e = none := by
  simp only [extractLabels] at h
  cases h1 : extractStep (gs "for-broker") (gs "-for-broker-") (gs "-for-broker")
      (gs "for_broker") n [] with
  | error p => rw [h1] at h; simp [bind, Except.bind] at h
  | ok p1 =>
      obtain ⟨n1, l1⟩ := p1
      rw [h1] at h
      simp [bind, Except.bind] at h
      have hl1 : alookup (gs "rate_unit") l1 = none := by
        rcases extractStep_labels h1 with h2 | ⟨s, h2⟩
        · subst h2; rfl
        · subst h2
          rw [alookup_aset_ne _ _ (by decide)]
          rfl
      rcases extractStep_labels h with h2 | ⟨s, h2⟩
      · subst h2; exact hl1
      · subst h2
        rw [alookup_aset_ne _ _ (by decide)]
        exact hl1

/-! ## Further supporting lemmas -/

theorem zipWith_pair_map (f : ℚ → ℚ) (l : List ℚ) :
    List.zipWith (fun bucket p => (bucket, u64ofRat p)) l (l.map f) =
      l.map (fun b => (b, u64ofRat (f b))) := by
  induction l with
  | nil => rfl
  | cons a as ih => simp [ih]

theorem u64ofRat_mono {q r : ℚ} (h : q ≤ r) : u64ofRat q ≤ u64ofRat r :=
  Int.toNat_le_toNat (Int.floor_le_floor h)

/-- The first publish of a fresh name on the construction-time state:
creates gauge 0, registers it under the flattened name with the raw name as
help string, caches it under the raw `createKey`, and writes the value. -/
theorem gauge_first_on_init (c : PromConfig) (n : GoStr) (v : ℚ) :
    gaugeFromNameAndValue c GState.init n v [] =
      .ok { gauges := [(createKey c.nspace c.subsys n, 0)],
            promGauges := [(gaugeFQName c n, (n, c.labels.map Prod.fst, 0))],
            nextGauge := 1,
            gaugeWrites := [(0, unionL (unionL [] c.labels) [], v)],
            customMetrics := [], nextCollector := 0, collectorMetric := [] } := by
  simp [gaugeFromNameAndValue, GState.init, alookup, registerGauge, handleGaugeRegister,
    aset, writeGauge, bind, Except.bind, pure, Except.pure]

/-- When the cache misses and the registry already holds the exported name
with a different help string or label names, `gaugeFromNameAndValue`
panics (the non-duplicate branch of its error handling). -/
theorem gauge_conflict (c : PromConfig) (st : GState) (n : GoStr) (v : ℚ) (e : Labels)
    (hmiss : alookup (createKey c.nspace c.subsys n) st.gauges = none)
    (hfound : ∃ h' l' g', alookup (gaugeFQName c n) st.promGauges = some (h', l', g') ∧
      ¬(h' = n ∧ l' = c.labels.map Prod.fst ++ e.map Prod.fst)) :
    gaugeFromNameAndValue c st n v e = .error .registrationFailed := by
  simp only [gaugeFromNameAndValue]
  rw [hmiss]
  obtain ⟨h', l', g', hlook, hcond⟩ := hfound
  simp only [registerGauge]
  simp only [hlook]
  rw [if_neg hcond]
  rfl

/-- Projection of a write whose extra labels set `rate_unit` to `s` on top
of a map that does not bind `rate_unit`. -/
theorem rateUnitView_of_aset (c : PromConfig) (g : ℕ) (extra : Labels)
    (s : GoStr) (v : ℚ) (hru : alookup (gs "rate_unit") extra = none) :
    rateUnitView (g, unionL (unionL [] c.labels) (aset extra (gs "rate_unit") s), v) =
      (some s, v) := by
  unfold rateUnitView
  simp [alookup_unionL_aset _ _ _ _ hru]

/-- An entry of a kind the type switch does not recognize is skipped with no
effect on the state (provided its name survives the extraction hack). -/
theorem processEntry_unrecognized (c : PromConfig) (st : GState) (n : GoStr)
    (p : GoStr × Labels) (hex : extractLabels n = .ok p) :
    processEntry c st n .unrecognized = .ok st := by
  obtain ⟨n', e⟩ := p
  simp only [processEntry, hex, bind, Except.bind, pure, Except.pure]

/-! ## The claims -/

/-- Claim C1, counterexample.  The claim says name flattening is applied to
the identity (cache) key exactly as to the exported series name, so that two
names flattening to the same string share one cache key and one series
mapping.  In the code `createKey` uses the raw names: `a.b` and `a-b`
flatten to the same string and get the same exported name, but their cache
keys differ — and publishing both does not reuse one series object: the
second registration is rejected (same exported name, different help string)
and the publisher panics. -/
theorem C1_counterexample :
    flattenKey (gs "a.b") = flattenKey (gs "a-b") ∧
    createKey (gs "ns") (gs "ss") (gs "a.b") ≠ createKey (gs "ns") (gs "ss") (gs "a-b") ∧
    gaugeFQName (newPrometheusProvider (gs "ns") (gs "ss")) (gs "a.b") =
      gaugeFQName (newPrometheusProvider (gs "ns") (gs "ss")) (gs "a-b") ∧
    (do
      let s ← gaugeFromNameAndValue (newPrometheusProvider (gs "ns") (gs "ss"))
        GState.init (gs "a.b") 1 []
      gaugeFromNameAndValue (newPrometheusProvider (gs "ns") (gs "ss")) s (gs "a-b") 2 []) =
      .error .registrationFailed :=
  ⟨by decide, by decide, by decide, rfl⟩

/-- Claim C1, amended.  Flattening is applied to the exported series name
but not to the cache key: for any two distinct names that flatten to the
same string under the same (namespace, subsystem), the cache keys differ
while the exported names coincide, and publishing both (fresh state, no
extra labels) creates a second cache entry and then panics, because the
exporter registry rejects the second registration — same exported name but
a different help string (the help is the unflattened name) — and that
rejection is not an `AlreadyRegisteredError`. -/
theorem C1_theorem (c : PromConfig) (n1 n2 : GoStr) (v1 v2 : ℚ)
    (hflat : flattenKey n1 = flattenKey n2) (hne : n1 ≠ n2) :
    createKey c.nspace c.subsys n1 ≠ createKey c.nspace c.subsys n2 ∧
    gaugeFQName c n1 = gaugeFQName c n2 ∧
    (do
      let s ← gaugeFromNameAndValue c GState.init n1 v1 []
      gaugeFromNameAndValue c s n2 v2 []) = .error .registrationFailed := by
  have hkey : createKey c.nspace c.subsys n1 ≠ createKey c.nspace c.subsys n2 :=
    fun h => hne (createKey_inj h)
  have hfq : gaugeFQName c n1 = gaugeFQName c n2 := by
    unfold gaugeFQName; rw [hflat]
  refine ⟨hkey, hfq, ?_⟩
  rw [gauge_first_on_init]
  simp only [bind, Except.bind]
  apply gauge_conflict
  · rw [alookup, if_neg (fun h => hkey h.symm)]
    rfl
  · refine ⟨n1, c.labels.map Prod.fst, 0, ?_, fun hc => hne hc.1⟩
    rw [← hfq]
    simp [alookup]

/-- Claim C1, witness: the amended claim evaluated at the names `a.b` and
`a-b` under namespace `n`, subsystem `s`. -/
theorem C1_witness :
    flattenKey (gs "a.b") = flattenKey (gs "a-b") ∧ (gs "a.b" ≠ gs "a-b") ∧
    (createKey (gs "n") (gs "s") (gs "a.b") ≠ createKey (gs "n") (gs "s") (gs "a-b") ∧
     gaugeFQName (newPrometheusProvider (gs "n") (gs "s")) (gs "a.b") =
       gaugeFQName (newPrometheusProvider (gs "n") (gs "s")) (gs "a-b") ∧
     (do
       let s ← gaugeFromNameAndValue (newPrometheusProvider (gs "n") (gs "s"))
         GState.init (gs "a.b") 3 []
       gaugeFromNameAndValue (newPrometheusProvider (gs "n") (gs "s")) s (gs "a-b") 4 []) =
       .error .registrationFailed) :=
  ⟨by decide, by decide,
   C1_theorem (newPrometheusProvider (gs "n") (gs "s")) (gs "a.b") (gs "a-b") 3 4
     (by decide) (by decide)⟩

/-- Claim C2, counterexample.  The claim says the repeating publish loop
performs its first publish immediately upon being called.  `time.Tick`
delivers no tick at time 0, so with the strictly positive interval 7 the
first `UpdatePrometheusMetricsOnce` call happens at time 7, not
immediately. -/
theorem C2_counterexample :
    (0 : ℕ) < 7 ∧ updateLoopCallTime 7 0 ≠ 0 := by decide

/-- Claim C2, amended.  For every strictly positive interval, the loop
performs its first publish only after one full interval has elapsed (at a
strictly positive time, not immediately), and then performs one publish
every interval thereafter; the tick stream is unending, so the loop never
returns. -/
theorem C2_theorem (interval : ℕ) (h : 0 < interval) (n : ℕ) :
    updateLoopCallTime interval 0 = interval ∧
    0 < updateLoopCallTime interval 0 ∧
    updateLoopCallTime interval (n + 1) = updateLoopCallTime interval n + interval := by
  unfold updateLoopCallTime tickTime
  refine ⟨by ring, by simpa using h, by ring⟩

/-- Claim C2, witness: the amended claim evaluated at interval 5, tick 2. -/
theorem C2_witness :
    (0 : ℕ) < 5 ∧ (updateLoopCallTime 5 0 = 5 ∧ 0 < updateLoopCallTime 5 0 ∧
      updateLoopCallTime 5 3 = updateLoopCallTime 5 2 + 5) :=
  ⟨by decide, C2_theorem 5 (by decide) 2⟩

/-- Claim C3, counterexample.  The claim says a non-duplicate registration
rejection is returned to the caller of `UpdatePrometheusMetricsOnce` as an
error value, with no panic.  In a cycle over the two counters `a-b` and
`a.b` (same flattened exported name, different help strings) the exporter
registry rejects the second registration for a non-duplicate reason, and
the cycle panics instead of returning an error value. -/
theorem C3_counterexample :
    updateOnce (newPrometheusProvider (gs "ns") (gs "ss")) GState.init
      [(gs "a-b", .counter 1), (gs "a.b", .counter 2)] = .error .registrationFailed := rfl

/-- Claim C3, amended.  A non-duplicate registration rejection makes
`gaugeFromNameAndValue` panic (`panic(err)`), so it never reaches the
caller as an error value; whenever `UpdatePrometheusMetricsOnce` does
return, its error value is `nil` — in the steady state the call returns
success. -/
theorem C3_theorem (c : PromConfig) (st : GState)
    (entries : List (GoStr × Metric)) (p : GState × Option GoError)
    (h : updateOnce c st entries = .ok p) :
    p.2 = none ∧
    (∀ g, handleGaugeRegister .otherFailure g = .error .registrationFailed) := by
  refine ⟨?_, fun g => rfl⟩
  simp only [updateOnce, bind, Except.bind] at h
  cases hf : entries.foldlM (fun s e => processEntry c s e.1 e.2) st with
  | error pe => rw [hf] at h; simp at h
  | ok st' =>
      rw [hf] at h
      simp [pure, Except.pure] at h
      rw [← h]

/-- Claim C3, witness: the amended claim evaluated at a one-counter
registry under namespace `t`, subsystem `s`. -/
theorem C3_witness :
    updateOnce (newPrometheusProvider (gs "t") (gs "s")) GState.init
        [(gs "c", Metric.counter 4)] = .ok c3result ∧
    (c3result.2 = none ∧
      (∀ g, handleGaugeRegister .otherFailure g = .error .registrationFailed)) :=
  ⟨rfl, C3_theorem (newPrometheusProvider (gs "t") (gs "s")) GState.init
    [(gs "c", Metric.counter 4)] c3result rfl⟩

/-- Claim C4 is right about the intended behavior and the code violates it:
the name `requests-for-broker` contains the substring `for-broker` but not
the full separator `-for-broker-`, so `strings.Split` returns a single
element and the access `split[1]` panics with an index-out-of-range —
publication does not degrade to the literal name. -/
theorem C4_theorem :
    goContains (gs "requests-for-broker") (gs "for-broker") = true ∧
    goContains (gs "requests-for-broker") (gs "-for-broker-") = false ∧
    processEntry (newPrometheusProvider (gs "kafka") (gs "consumer")) GState.init
      (gs "requests-for-broker") (.counter 5) = .error .indexOutOfRange :=
  ⟨rfl, rfl, rfl⟩

/-- Claim C5, confirmed.  For a Histogram (and a Timer) published as a
distribution series with the configured boundaries, the cumulative count
attributed to each boundary is the snapshot's percentile value at that
boundary converted to `uint64` — not a frequency count — and the series'
total count and sum are the snapshot's `Count()` and `Sum()`. -/
theorem C5_theorem (c : PromConfig) (st : GState) (name : GoStr)
    (hsnap : HistogramSnapshot) (tsnap : TimerSnapshot) (e : Labels) :
    (∃ ch, heldDistributionE c (histogramFromNameAndMetric c st name
        (.histogram hsnap) c.histogramBuckets e) name = some ch ∧
      ch.count = u64ofInt hsnap.count ∧ ch.sum = (hsnap.sum : ℚ) ∧
      ch.buckets = c.histogramBuckets.map
        (fun b => (b, u64ofRat (hsnap.percentile b)))) ∧
    (∃ ch, heldDistributionE c (histogramFromNameAndMetric c st name
        (.timer tsnap) c.timerBuckets e) name = some ch ∧
      ch.count = u64ofInt tsnap.count ∧ ch.sum = (tsnap.sum : ℚ) ∧
      ch.buckets = c.timerBuckets.map
        (fun b => (b, u64ofRat (tsnap.percentile b)))) := by
  constructor
  · obtain ⟨st2, hrun, -, hheld⟩ := hist_ok_histogram c st name hsnap c.histogramBuckets e
    refine ⟨constHistogramOf
        (buildFQName (flattenKey c.nspace) (flattenKey c.subsys)
          (flattenKey name ++ '_' :: gs "histogram"))
        hsnap.count hsnap.sum hsnap.percentile c.histogramBuckets
        (c.labels.map Prod.snd ++ e.map Prod.snd), ?_, rfl, rfl, ?_⟩
    · rw [hrun]; simpa [heldDistributionE] using hheld
    · simp [constHistogramOf, zipWith_pair_map]
  · obtain ⟨st2, hrun, -, hheld⟩ := hist_ok_timer c st name tsnap c.timerBuckets e
    refine ⟨constHistogramOf
        (buildFQName (flattenKey c.nspace) (flattenKey c.subsys)
          (flattenKey name ++ '_' :: gs "timer"))
        tsnap.count tsnap.sum tsnap.percentile c.timerBuckets
        (c.labels.map Prod.snd ++ e.map Prod.snd), ?_, rfl, rfl, ?_⟩
    · rw [hrun]; simpa [heldDistributionE] using hheld
    · simp [constHistogramOf, zipWith_pair_map]

/-- Claim C6, counterexample.  The claim says the cumulative count at the
final boundary is at most the total sample count.  For the histogram whose
reservoir holds the single value 1000 (count 1; every percentile query
returns 1000, as go-metrics computes on a one-element sample), the
published final bucket count is 1000 while the total count is 1. -/
theorem C6_counterexample :
    (heldDistributionE (newPrometheusProvider (gs "t") (gs "s"))
        (histogramFromNameAndMetric (newPrometheusProvider (gs "t") (gs "s")) GState.init
          (gs "h") (.histogram ⟨1, 1000, [1000], fun _ => 1000⟩)
          defaultHistogramBuckets []) (gs "h")).map
      (fun ch => ((ch.buckets.getLastD (0, 0)).2, ch.count)) = some (1000, 1) ∧
    ¬ ((1000 : ℕ) ≤ 1) := ⟨rfl, by decide⟩

/-- Claim C6, amended.  For a Histogram published with the default
boundaries, the cumulative bucket counts are non-decreasing as the boundary
increases (the snapshot's percentile query is monotone in the requested
percentile), but the count at the final boundary equals the 0.99-percentile
sample value converted to `uint64`, which need not be bounded by the total
sample count. -/
theorem C6_theorem (c : PromConfig) (st : GState) (name : GoStr) (e : Labels)
    (snap : HistogramSnapshot) (hmono : Monotone snap.percentile) :
    ∃ ch, heldDistributionE c (histogramFromNameAndMetric c st name (.histogram snap)
        defaultHistogramBuckets e) name = some ch ∧
      List.Chain' (· ≤ ·) (ch.buckets.map Prod.snd) ∧
      (ch.buckets.getLastD (0, 0)).2 = u64ofRat (snap.percentile 0.99) := by
  obtain ⟨st2, hrun, -, hheld⟩ := hist_ok_histogram c st name snap defaultHistogramBuckets e
  refine ⟨constHistogramOf
      (buildFQName (flattenKey c.nspace) (flattenKey c.subsys)
        (flattenKey name ++ '_' :: gs "histogram"))
      snap.count snap.sum snap.percentile defaultHistogramBuckets
      (c.labels.map Prod.snd ++ e.map Prod.snd), ?_, ?_, ?_⟩
  · rw [hrun]; simpa [heldDistributionE] using hheld
  · simp only [constHistogramOf, zipWith_pair_map, defaultHistogramBuckets]
    simp only [List.map_cons, List.map_nil, List.chain'_cons, List.chain'_singleton, and_true]
    refine ⟨?_, ?_, ?_, ?_, ?_, ?_, ?_⟩ <;>
      exact u64ofRat_mono (hmono (by norm_num))
  · simp [constHistogramOf, zipWith_pair_map, defaultHistogramBuckets]

/-- Claim C6, witness: the amended claim evaluated at the snapshot whose
percentile query is the identity function. -/
theorem C6_witness :
    Monotone (HistogramSnapshot.mk 0 0 [] id).percentile ∧
    (∃ ch, heldDistributionE (newPrometheusProvider (gs "tt") (gs "ss"))
        (histogramFromNameAndMetric (newPrometheusProvider (gs "tt") (gs "ss")) GState.init
          (gs "hh") (.histogram ⟨0, 0, [], id⟩) defaultHistogramBuckets []) (gs "hh") = some ch ∧
      List.Chain' (· ≤ ·) (ch.buckets.map Prod.snd) ∧
      (ch.buckets.getLastD (0, 0)).2 =
        u64ofRat ((HistogramSnapshot.mk 0 0 [] id).percentile 0.99)) :=
  ⟨fun _ _ h => h,
   C6_theorem (newPrometheusProvider (gs "tt") (gs "ss")) GState.init (gs "hh") []
     ⟨0, 0, [], id⟩ (fun _ _ h => h)⟩

/-- Claim C7, confirmed.  Publishing a Meter in one cycle produces exactly
the labeled gauge sub-series for the statistics {rate1, rate5, rate15,
rate_mean, count} — the `rate_unit` label values being `rate1`, `rate5`,
`rate15`, `mean` and `count` — each numerically equal to the corresponding
accessor (`Rate1`, `Rate5`, `Rate15`, `RateMean`, `Count`) of the snapshot
taken during the cycle. -/
theorem C7_theorem (c : PromConfig) (st : GState) (name0 name1 : GoStr)
    (extra : Labels) (snap : MeterSnapshot)
    (hex : extractLabels name0 = .ok (name1, extra))
    (hok : isOkE (processEntry c st name0 (.meter snap)) = true) :
    (writesOf (processEntry c st name0 (.meter snap))).map rateUnitView =
      st.gaugeWrites.map rateUnitView ++
        [(some (gs "rate1"), snap.rate1), (some (gs "rate5"), snap.rate5),
         (some (gs "rate15"), snap.rate15), (some (gs "mean"), snap.rateMean),
         (some (gs "count"), (snap.count : ℚ))] := by
  have hru : alookup (gs "rate_unit") extra = none := extract_no_rate_unit hex
  simp only [processEntry, hex, bind, Except.bind] at hok ⊢
  cases h1 : gaugeFromNameAndValue c st name1 snap.rate1
      (aset extra (gs "rate_unit") (gs "rate1")) with
  | error p => rw [h1] at hok; simp [isOkE] at hok
  | ok st1 =>
  rw [h1] at hok
  dsimp only at hok ⊢
  cases h2 : gaugeFromNameAndValue c st1 name1 snap.rate5
      (aset (aset extra (gs "rate_unit") (gs "rate1")) (gs "rate_unit") (gs "rate5")) with
  | error p => rw [h2] at hok; simp [isOkE] at hok
  | ok st2 =>
  rw [h2] at hok
  dsimp only at hok ⊢
  cases h3 : gaugeFromNameAndValue c st2 name1 snap.rate15
      (aset (aset (aset extra (gs "rate_unit") (gs "rate1")) (gs "rate_unit") (gs "rate5"))
        (gs "rate_unit") (gs "rate15")) with
  | error p => rw [h3] at hok; simp [isOkE] at hok
  | ok st3 =>
  rw [h3] at hok
  dsimp only at hok ⊢
  cases h4 : gaugeFromNameAndValue c st3 name1 snap.rateMean
      (aset (aset (aset (aset extra (gs "rate_unit") (gs "rate1")) (gs "rate_unit") (gs "rate5"))
        (gs "rate_unit") (gs "rate15")) (gs "rate_unit") (gs "mean")) with
  | error p => rw [h4] at hok; simp [isOkE] at hok
  | ok st4 =>
  rw [h4] at hok
  dsimp only at hok ⊢
  cases h5 : gaugeFromNameAndValue c st4 name1 (snap.count : ℚ)
      (aset (aset (aset (aset (aset extra (gs "rate_unit") (gs "rate1")) (gs "rate_unit") (gs "rate5"))
        (gs "rate_unit") (gs "rate15")) (gs "rate_unit") (gs "mean")) (gs "rate_unit") (gs "count")) with
  | error p => rw [h5] at hok; simp [isOkE] at hok
  | ok st5 =>
  obtain ⟨g1, hw1⟩ := gauge_ok_writes h1
  obtain ⟨g2, hw2⟩ := gauge_ok_writes h2
  obtain ⟨g3, hw3⟩ := gauge_ok_writes h3
  obtain ⟨g4, hw4⟩ := gauge_ok_writes h4
  obtain ⟨g5, hw5⟩ := gauge_ok_writes h5
  simp only [aset_aset_same] at hw2 hw3 hw4 hw5
  simp only [writesOf, hw5, hw4, hw3, hw2, hw1]
  simp only [List.map_append, List.append_assoc, List.map_cons, List.map_nil]
  rw [rateUnitView_of_aset c g1 extra _ _ hru, rateUnitView_of_aset c g2 extra _ _ hru,
    rateUnitView_of_aset c g3 extra _ _ hru, rateUnitView_of_aset c g4 extra _ _ hru,
    rateUnitView_of_aset c g5 extra _ _ hru]
  simp

/-- Claim C7, witness: the meter claim evaluated at a concrete snapshot on
the construction-time state. -/
theorem C7_witness :
    extractLabels (gs "meter1") = .ok (gs "meter1", []) ∧
    isOkE (processEntry (newPrometheusProvider (gs "mm") (gs "nn")) GState.init (gs "meter1")
      (.meter ⟨3, 1/2, 2/3, 3/4, 4/5⟩)) = true ∧
    (writesOf (processEntry (newPrometheusProvider (gs "mm") (gs "nn")) GState.init (gs "meter1")
        (.meter ⟨3, 1/2, 2/3, 3/4, 4/5⟩))).map rateUnitView =
      GState.init.gaugeWrites.map rateUnitView ++
        [(some (gs "rate1"), (1 : ℚ)/2), (some (gs "rate5"), (2 : ℚ)/3),
         (some (gs "rate15"), (3 : ℚ)/4), (some (gs "mean"), (4 : ℚ)/5),
         (some (gs "count"), ((3 : ℤ) : ℚ))] :=
  ⟨rfl, rfl, C7_theorem (newPrometheusProvider (gs "mm") (gs "nn")) GState.init
    (gs "meter1") (gs "meter1") [] ⟨3, 1/2, 2/3, 3/4, 4/5⟩ rfl rfl⟩

/-- Claim C8, counterexample.  The claim says a duplicate-registration
rejection leads to reuse of the existing collector on every series-creation
path, including the custom histogram-collector path.  On the custom path
the code uses `MustRegister`, which treats a rejection carrying the
existing collector (collector 0 here) as fatal — it panics instead of
reusing — while the gauge path does reuse the existing collector. -/
theorem C8_counterexample :
    histRegisterHandle (.alreadyRegistered 0) = .error .registrationFailed ∧
    handleGaugeRegister (.alreadyRegistered 0) 1 = .ok 0 := ⟨rfl, rfl⟩

/-- Claim C8, amended.  On the gauge path a duplicate rejection (the
registry already holds the exported name with the same help string and
label names, as collector `g'`) is handled by reusing `g'`: the cache entry
points at `g'` and the value write goes to `g'`.  On the custom
histogram-collector path `MustRegister` panics on a duplicate rejection
instead of reusing. -/
theorem C8_theorem (c : PromConfig) (st : GState) (name : GoStr) (v : ℚ)
    (e : Labels) (g' : ℕ)
    (hmiss : alookup (createKey c.nspace c.subsys name) st.gauges = none)
    (hdup : alookup (gaugeFQName c name) st.promGauges =
      some (name, c.labels.map Prod.fst ++ e.map Prod.fst, g')) :
    gaugeFromNameAndValue c st name v e =
      .ok (writeGauge { st with
          nextGauge := st.nextGauge + 1
          gauges := aset st.gauges (createKey c.nspace c.subsys name) g' }
        g' (unionL (unionL [] c.labels) e) v) ∧
    histRegisterHandle (.alreadyRegistered g') = .error .registrationFailed := by
  refine ⟨?_, rfl⟩
  simp only [gaugeFromNameAndValue]
  rw [hmiss]
  simp only [registerGauge]
  simp only [hdup]
  rw [if_pos (⟨trivial, trivial⟩ : True ∧ True)]
  rfl

/-- Claim C8, witness: the amended claim evaluated on a state in which the
exported name `p_q_g1` is already registered as collector 7. -/
theorem C8_witness :
    alookup (createKey (gs "p") (gs "q") (gs "g1")) c8st.gauges = none ∧
    alookup (gaugeFQName (newPrometheusProvider (gs "p") (gs "q")) (gs "g1")) c8st.promGauges =
      some (gs "g1", [], 7) ∧
    (gaugeFromNameAndValue (newPrometheusProvider (gs "p") (gs "q")) c8st (gs "g1") 9 [] =
      .ok (writeGauge { c8st with
          nextGauge := c8st.nextGauge + 1
          gauges := aset c8st.gauges (createKey (gs "p") (gs "q") (gs "g1")) 7 }
        7 (unionL (unionL [] []) []) 9) ∧
     histRegisterHandle (.alreadyRegistered 7) = .error .registrationFailed) :=
  ⟨rfl, rfl, C8_theorem (newPrometheusProvider (gs "p") (gs "q")) c8st (gs "g1") 9 [] 7 rfl rfl⟩

/-- Claim C9, counterexample.  The claim quantifies over every registry
mixing recognized and unrecognized metric kinds.  When the unrecognized
entry's name partially matches the extraction pattern (here
`weird-for-topic`), the cycle panics before the type switch is reached:
the recognized counter is published, but the cycle crashes rather than
silently skipping the unrecognized entry. -/
theorem C9_counterexample :
    updateOnce (newPrometheusProvider (gs "t") (gs "s")) GState.init
      [(gs "ok-counter", .counter 1), (gs "weird-for-topic", .unrecognized)] =
      .error .indexOutOfRange := rfl

/-- Claim C9, amended.  Provided the metric names survive the
structured-name extraction (no partial pattern match), a publish cycle over
a registry holding a recognized Counter and a metric of unrecognized kind
publishes the counter (one gauge write carrying its value), silently skips
the unrecognized entry (the cycle result is unchanged by its presence),
returns a `nil` error and does not panic. -/
theorem C9_theorem (c : PromConfig) (st st1 : GState) (err : Option GoError)
    (n1 n2 n1' n2' : GoStr) (ex1 ex2 : Labels) (v : ℤ)
    (hex1 : extractLabels n1 = .ok (n1', ex1))
    (hex2 : extractLabels n2 = .ok (n2', ex2))
    (hok : updateOnce c st [(n1, .counter v)] = .ok (st1, err)) :
    updateOnce c st [(n1, Metric.counter v), (n2, Metric.unrecognized)] = .ok (st1, none) ∧
    err = none ∧
    st1.gaugeWrites.map valueView = st.gaugeWrites.map valueView ++ [(v : ℚ)] := by
  simp only [updateOnce, List.foldlM_cons, List.foldlM_nil, bind, Except.bind,
    pure, Except.pure] at hok ⊢
  cases hpe : processEntry c st n1 (.counter v) with
  | error p => rw [hpe] at hok; simp at hok
  | ok s1 =>
      rw [hpe] at hok
      dsimp only at hok
      simp only [Except.ok.injEq, Prod.mk.injEq] at hok
      obtain ⟨hs1, herr⟩ := hok
      subst hs1
      refine ⟨?_, herr.symm, ?_⟩
      · dsimp only
        rw [processEntry_unrecognized c s1 n2 (n2', ex2) hex2]
      · have hpe' : gaugeFromNameAndValue c st n1' (v : ℚ) ex1 = .ok s1 := by
          simpa only [processEntry, hex1, bind, Except.bind] using hpe
        obtain ⟨g, hw⟩ := gauge_ok_writes hpe'
        simp [hw, valueView]

/-- Claim C9, witness: the amended claim evaluated at a registry holding
the counter `cnt` (value 6) and an unrecognized metric `mystery`. -/
theorem C9_witness :
    extractLabels (gs "cnt") = .ok (gs "cnt", []) ∧
    extractLabels (gs "mystery") = .ok (gs "mystery", []) ∧
    updateOnce (newPrometheusProvider (gs "w") (gs "x")) GState.init
      [(gs "cnt", Metric.counter 6)] = .ok (c9st1, none) ∧
    (updateOnce (newPrometheusProvider (gs "w") (gs "x")) GState.init
        [(gs "cnt", Metric.counter 6), (gs "mystery", Metric.unrecognized)] = .ok (c9st1, none) ∧
     (none : Option GoError) = none ∧
     c9st1.gaugeWrites.map valueView = GState.init.gaugeWrites.map valueView ++ [(6 : ℚ)]) :=
  ⟨rfl, rfl, rfl,
   C9_theorem (newPrometheusProvider (gs "w") (gs "x")) GState.init c9st1 none
     (gs "cnt") (gs "mystery") (gs "cnt") (gs "mystery") [] [] 6 rfl rfl rfl⟩

/-- Claim C10, confirmed.  For a Histogram whose reservoir sample is empty
at publish time, the cycle publishes no latest-raw-sample convenience gauge
(the write log gains no entry), while the distribution series is still
published; when the sample is non-empty, exactly one convenience gauge
write is made, carrying the last sample value. -/
theorem C10_theorem (c : PromConfig) (st : GState) (name0 name1 : GoStr)
    (extra : Labels) (snap : HistogramSnapshot)
    (hex : extractLabels name0 = .ok (name1, extra))
    (hok : isOkE (processEntry c st name0 (.histogram snap)) = true) :
    (writesOf (processEntry c st name0 (.histogram snap))).map valueView =
      st.gaugeWrites.map valueView ++
        (if snap.sampleValues.length > 0
          then [((snap.sampleValues.getLastD 0 : ℤ) : ℚ)] else []) ∧
    heldDistributionE c (processEntry c st name0 (.histogram snap)) name1 =
      some (constHistogramOf
        (buildFQName (flattenKey c.nspace) (flattenKey c.subsys)
          (flattenKey name1 ++ '_' :: gs "histogram"))
        snap.count snap.sum snap.percentile c.histogramBuckets
        (c.labels.map Prod.snd ++ extra.map Prod.snd)) := by
  simp only [processEntry, hex, bind, Except.bind] at hok ⊢
  by_cases hlen : snap.sampleValues.length > 0
  · rw [if_pos hlen] at hok ⊢
    cases h1 : gaugeFromNameAndValue c st name1
        ((snap.sampleValues.getLastD 0 : ℤ) : ℚ) extra with
    | error p => rw [h1] at hok; simp [isOkE] at hok
    | ok st1 =>
        rw [h1] at hok
        dsimp only at hok ⊢
        obtain ⟨st2, hrun, hw, hheld⟩ := hist_ok_histogram c st1 name1 snap c.histogramBuckets extra
        rw [hrun]
        obtain ⟨g, hw1⟩ := gauge_ok_writes h1
        constructor
        · simp [writesOf, hw, hw1, valueView, hlen]
        · simpa [heldDistributionE] using hheld
  · rw [if_neg hlen] at hok ⊢
    obtain ⟨st2, hrun, hw, hheld⟩ := hist_ok_histogram c st name1 snap c.histogramBuckets extra
    dsimp only [pure, Except.pure] at hok ⊢
    rw [hrun]
    constructor
    · simp [writesOf, hw, hlen]
    · simpa [heldDistributionE] using hheld

/-- Claim C10, witness: the claim evaluated at a histogram snapshot with an
empty reservoir sample. -/
theorem C10_witness :
    extractLabels (gs "hist0") = .ok (gs "hist0", []) ∧
    isOkE (processEntry (newPrometheusProvider (gs "y") (gs "z")) GState.init (gs "hist0")
      (.histogram ⟨2, 5, [], id⟩)) = true ∧
    ((writesOf (processEntry (newPrometheusProvider (gs "y") (gs "z")) GState.init (gs "hist0")
        (.histogram ⟨2, 5, [], id⟩))).map valueView =
      GState.init.gaugeWrites.map valueView ++
        (if (HistogramSnapshot.mk 2 5 [] id).sampleValues.length > 0
          then [(((HistogramSnapshot.mk 2 5 [] id).sampleValues.getLastD 0 : ℤ) : ℚ)] else []) ∧
     heldDistributionE (newPrometheusProvider (gs "y") (gs "z"))
        (processEntry (newPrometheusProvider (gs "y") (gs "z")) GState.init (gs "hist0")
          (.histogram ⟨2, 5, [], id⟩)) (gs "hist0") =
      some (constHistogramOf
        (buildFQName (flattenKey (gs "y")) (flattenKey (gs "z"))
          (flattenKey (gs "hist0") ++ '_' :: gs "histogram"))
        2 5 id defaultHistogramBuckets [])) :=
  ⟨rfl, rfl, C10_theorem (newPrometheusProvider (gs "y") (gs "z")) GState.init
    (gs "hist0") (gs "hist0") [] ⟨2, 5, [], id⟩ rfl rfl⟩
